import Mathlib

/-!
# MITK: MIME-type registry, IGT player widget, rendering test helper, plugin views

A shallow embedding of

* `Modules/Core/src/IO/mitkIOMimeTypes.cpp` (the static registry of MIME-type
  descriptors and the DICOM content check),
* `Modules/IGTUI/Qmitk/QmitkIGTPlayerWidget.cpp` (the tracking-data player widget),
* `Core/Code/Rendering/mitkRenderingTestHelper.cpp` (the rendering test helper),
* `QmitkFlowBenchApplicationWorkbenchAdvisor.cpp` and `.h` (the initial perspective), and
* `QmitkThrombusView.cpp` (the selection handler of the thrombus view),

followed by theorems about them.
-/

namespace mitk

/-! ## MIME-type descriptors -/

/-- The dynamic class of a descriptor object: it decides which `AppliesTo` a
virtual call runs. `Clone` keeps it (each class overrides `Clone`). -/
inductive MimeClass where
  | CustomMimeType
  | BaseDicomMimeType
  | DicomMimeType
  deriving DecidableEq, Repr

/-- Modelled from the spec: the class `CustomMimeType` (mitkCustomMimeType.h/.cpp) is
not among the sources. The spec describes a descriptor as an immutable record of
name, category, comment, list of file extensions and an optional content-sniffing
predicate; the predicate is represented by the dynamic class of the object. -/
structure CustomMimeType where
  name : String
  category : String
  comment : String
  extensions : List String
  dynamicType : MimeClass
  deriving DecidableEq, Repr

namespace CustomMimeType

/-- Modelled from the spec: constructor `CustomMimeType(name)` of the missing class;
a fresh descriptor has the given name and nothing else. -/
def new (name : String) : CustomMimeType :=
  { name := name, category := "", comment := "", extensions := [],
    dynamicType := MimeClass.CustomMimeType }

/-- Modelled from the spec: `AddExtension` of the missing class; the extension is put
at the end of the descriptor's list of file extensions. -/
def AddExtension (m : CustomMimeType) (extension : String) : CustomMimeType :=
  { m with extensions := m.extensions ++ [extension] }

/-- Modelled from the spec: `SetCategory` of the missing class. -/
def SetCategory (m : CustomMimeType) (category : String) : CustomMimeType :=
  { m with category := category }

/-- Modelled from the spec: `SetComment` of the missing class. -/
def SetComment (m : CustomMimeType) (comment : String) : CustomMimeType :=
  { m with comment := comment }

/-- `Clone()`: a copy of the object, of the same dynamic class. -/
def Clone (m : CustomMimeType) : CustomMimeType := m

end CustomMimeType

namespace IOMimeTypes

def DEFAULT_BASE_NAME : String := "application/vnd.mitk"

def CATEGORY_IMAGES : String := "Images"

def CATEGORY_SURFACES : String := "Surfaces"

def STEREOLITHOGRAPHY_NAME : String := DEFAULT_BASE_NAME ++ ".stl"

def WAVEFRONT_OBJ_NAME : String := DEFAULT_BASE_NAME ++ ".obj"

def STANFORD_PLY_NAME : String := DEFAULT_BASE_NAME ++ ".ply"

def VTK_IMAGE_NAME : String := DEFAULT_BASE_NAME ++ ".vtk.image"

def VTK_IMAGE_LEGACY_NAME : String := DEFAULT_BASE_NAME ++ ".vtk.image.legacy"

def VTK_PARALLEL_IMAGE_NAME : String := DEFAULT_BASE_NAME ++ ".vtk.parallel.image"

def VTK_POLYDATA_NAME : String := DEFAULT_BASE_NAME ++ ".vtk.polydata"

def VTK_POLYDATA_LEGACY_NAME : String := DEFAULT_BASE_NAME ++ ".vtk.polydata.legacy"

def VTK_PARALLEL_POLYDATA_NAME : String := DEFAULT_BASE_NAME ++ ".vtk.parallel.polydata"

def NRRD_MIMETYPE_NAME : String := DEFAULT_BASE_NAME ++ ".image.nrrd"

def NIFTI_MIMETYPE_NAME : String := DEFAULT_BASE_NAME ++ ".image.nifti"

def RAW_MIMETYPE_NAME : String := DEFAULT_BASE_NAME ++ ".image.raw"

def DICOM_MIMETYPE_NAME : String := DEFAULT_BASE_NAME ++ ".image.dicom"

def POINTSET_MIMETYPE_NAME : String := DEFAULT_BASE_NAME ++ ".pointset"

/-- Constructor `BaseDicomMimeType::BaseDicomMimeType(name)`. -/
def BaseDicomMimeType (name : String) : CustomMimeType :=
  let m := { CustomMimeType.new name with dynamicType := MimeClass.BaseDicomMimeType }
  let m := m.AddExtension "gdcm"
  let m := m.AddExtension "dcm"
  let m := m.AddExtension "DCM"
  let m := m.AddExtension "dc3"
  let m := m.AddExtension "DC3"
  let m := m.AddExtension "ima"
  let m := m.AddExtension "img"
  let m := m.SetCategory CATEGORY_IMAGES
  m.SetComment "DICOM"

/-- Constructor `DicomMimeType::DicomMimeType()`. -/
def DicomMimeType : CustomMimeType :=
  { BaseDicomMimeType DICOM_MIMETYPE_NAME with dynamicType := MimeClass.DicomMimeType }

def VTK_IMAGE_MIMETYPE : CustomMimeType :=
  let mimeType := CustomMimeType.new VTK_IMAGE_NAME
  let mimeType := mimeType.AddExtension "vti"
  let mimeType := mimeType.SetCategory CATEGORY_IMAGES
  mimeType.SetComment "VTK Image"

def VTK_IMAGE_LEGACY_MIMETYPE : CustomMimeType :=
  let mimeType := CustomMimeType.new VTK_IMAGE_LEGACY_NAME
  let mimeType := mimeType.AddExtension "vtk"
  let mimeType := mimeType.SetCategory CATEGORY_IMAGES
  mimeType.SetComment "VTK Legacy Image"

def VTK_PARALLEL_IMAGE_MIMETYPE : CustomMimeType :=
  let mimeType := CustomMimeType.new VTK_PARALLEL_IMAGE_NAME
  let mimeType := mimeType.AddExtension "pvti"
  let mimeType := mimeType.SetCategory CATEGORY_IMAGES
  mimeType.SetComment "VTK Parallel Image"

def VTK_POLYDATA_MIMETYPE : CustomMimeType :=
  let mimeType := CustomMimeType.new VTK_POLYDATA_NAME
  let mimeType := mimeType.AddExtension "vtp"
  let mimeType := mimeType.SetCategory CATEGORY_SURFACES
  mimeType.SetComment "VTK PolyData"

def VTK_POLYDATA_LEGACY_MIMETYPE : CustomMimeType :=
  let mimeType := CustomMimeType.new VTK_POLYDATA_LEGACY_NAME
  let mimeType := mimeType.AddExtension "vtk"
  let mimeType := mimeType.SetCategory CATEGORY_SURFACES
  mimeType.SetComment "VTK Legacy PolyData"

def VTK_PARALLEL_POLYDATA_MIMETYPE : CustomMimeType :=
  let mimeType := CustomMimeType.new VTK_PARALLEL_POLYDATA_NAME
  let mimeType := mimeType.AddExtension "pvtp"
  let mimeType := mimeType.SetCategory CATEGORY_SURFACES
  mimeType.SetComment "VTK Parallel PolyData"

def STEREOLITHOGRAPHY_MIMETYPE : CustomMimeType :=
  let mimeType := CustomMimeType.new STEREOLITHOGRAPHY_NAME
  let mimeType := mimeType.AddExtension "stl"
  let mimeType := mimeType.SetCategory CATEGORY_SURFACES
  mimeType.SetComment "Stereolithography"

def WAVEFRONT_OBJ_MIMETYPE : CustomMimeType :=
  let mimeType := CustomMimeType.new WAVEFRONT_OBJ_NAME
  let mimeType := mimeType.AddExtension "obj"
  let mimeType := mimeType.SetCategory CATEGORY_SURFACES
  mimeType.SetComment "Wavefront OBJ"

def STANFORD_PLY_MIMETYPE : CustomMimeType :=
  let mimeType := CustomMimeType.new STANFORD_PLY_NAME
  let mimeType := mimeType.AddExtension "ply"
  let mimeType := mimeType.SetCategory CATEGORY_SURFACES
  mimeType.SetComment "Stanford PLY"

def NRRD_MIMETYPE : CustomMimeType :=
  let mimeType := CustomMimeType.new NRRD_MIMETYPE_NAME
  let mimeType := mimeType.AddExtension "nrrd"
  let mimeType := mimeType.AddExtension "nhdr"
  let mimeType := mimeType.SetCategory "Images"
  mimeType.SetComment "NRRD"

def NIFTI_MIMETYPE : CustomMimeType :=
  let mimeType := CustomMimeType.new NIFTI_MIMETYPE_NAME
  let mimeType := mimeType.AddExtension "nii"
  let mimeType := mimeType.AddExtension "nii.gz"
  let mimeType := mimeType.AddExtension "hdr"
  let mimeType := mimeType.AddExtension "hdr.gz"
  let mimeType := mimeType.AddExtension "img"
  let mimeType := mimeType.AddExtension "img.gz"
  let mimeType := mimeType.AddExtension "nia"
  let mimeType := mimeType.SetCategory "Images"
  mimeType.SetComment "Nifti"

def RAW_MIMETYPE : CustomMimeType :=
  let mimeType := CustomMimeType.new RAW_MIMETYPE_NAME
  let mimeType := mimeType.AddExtension "raw"
  let mimeType := mimeType.SetCategory "Images"
  mimeType.SetComment "Raw data"

def DICOM_MIMETYPE : CustomMimeType := DicomMimeType

def POINTSET_MIMETYPE : CustomMimeType :=
  let mimeType := CustomMimeType.new POINTSET_MIMETYPE_NAME
  let mimeType := mimeType.AddExtension "mps"
  let mimeType := mimeType.SetCategory "Point Sets"
  mimeType.SetComment "MITK Point Set"

def GEOMETRY_DATA_MIMETYPE : CustomMimeType :=
  let mimeType := CustomMimeType.new (DEFAULT_BASE_NAME ++ ".geometrydata")
  let mimeType := mimeType.AddExtension "mitkgeometry"
  let mimeType := mimeType.SetCategory "Geometries"
  mimeType.SetComment "GeometryData object"

/-- `IOMimeTypes::Get()`: the registry, in push order (descending rank). -/
def Get : List CustomMimeType :=
  let mimeTypes : List CustomMimeType := []
  let mimeTypes := mimeTypes ++ [NRRD_MIMETYPE.Clone]
  let mimeTypes := mimeTypes ++ [NIFTI_MIMETYPE.Clone]
  let mimeTypes := mimeTypes ++ [VTK_IMAGE_MIMETYPE.Clone]
  let mimeTypes := mimeTypes ++ [VTK_PARALLEL_IMAGE_MIMETYPE.Clone]
  let mimeTypes := mimeTypes ++ [VTK_IMAGE_LEGACY_MIMETYPE.Clone]
  let mimeTypes := mimeTypes ++ [DICOM_MIMETYPE.Clone]
  let mimeTypes := mimeTypes ++ [VTK_POLYDATA_MIMETYPE.Clone]
  let mimeTypes := mimeTypes ++ [VTK_PARALLEL_POLYDATA_MIMETYPE.Clone]
  let mimeTypes := mimeTypes ++ [VTK_POLYDATA_LEGACY_MIMETYPE.Clone]
  let mimeTypes := mimeTypes ++ [STEREOLITHOGRAPHY_MIMETYPE.Clone]
  let mimeTypes := mimeTypes ++ [WAVEFRONT_OBJ_MIMETYPE.Clone]
  let mimeTypes := mimeTypes ++ [STANFORD_PLY_MIMETYPE.Clone]
  let mimeTypes := mimeTypes ++ [RAW_MIMETYPE.Clone]
  let mimeTypes := mimeTypes ++ [POINTSET_MIMETYPE.Clone]
  mimeTypes

/-! ## The DICOM content check -/

/-- The key/value dictionary `itk::MetaDataDictionary`, read through
`itk::ExposeMetaData<std::string>`: `none` when the key has no string entry. -/
abbrev MetaDataDictionary := String → Option String

/-- The file system (`itksys::SystemTools`, `itksys::Directory`), the GDCM image reader
(`itk::GDCMImageIO`) and the inherited `CustomMimeType::MatchesExtension`, none of which
is defined in this file of the sources: they are taken as oracles. -/
structure DicomOracle where
  /-- `itksys::SystemTools::FileIsDirectory`. -/
  FileIsDirectory : String → Bool
  /-- The entries `GetFile(0)`, ..., `GetFile(GetNumberOfFiles() - 1)` after `Load(path)`. -/
  DirectoryFiles : String → List String
  /-- `this->MatchesExtension(filename)` of the descriptor. -/
  MatchesExtension : CustomMimeType → String → Bool
  /-- `SetFileName(f); ReadImageInformation()` followed by `GetMetaDataDictionary()`:
  `none` when `ReadImageInformation` throws an `itk::ExceptionObject`. -/
  ReadImageInformation : String → Option MetaDataDictionary
  /-- `CanReadFile` of the reader. -/
  CanReadFile : String → Bool

/-- Lines 44-67 of `BaseDicomMimeType::AppliesTo`: the file that is handed to the
GDCM reader (the local variable `filepath`). -/
def BaseDicomMimeType.filepath (o : DicomOracle) (this : CustomMimeType) (path : String) :
    String :=
  let pathIsDirectory := o.FileIsDirectory path
  let filepath := path
  if pathIsDirectory then
    let files : List String :=
      (o.DirectoryFiles path).foldl
        (fun files filename =>
          if !o.FileIsDirectory filename && o.MatchesExtension this filename then
            files ++ [path ++ "/" ++ filename]
          else files)
        []
    match files with
    | front :: _ => front
    | [] => filepath
  else filepath

/-- `BaseDicomMimeType::AppliesTo(path)`. -/
def BaseDicomMimeType.AppliesTo (o : DicomOracle) (this : CustomMimeType) (path : String) :
    Bool :=
  let filepath := BaseDicomMimeType.filepath o this path
  match o.ReadImageInformation filepath with
  | none => false
  | some dict =>
    let modality : String := (dict "0008|0060").getD ""
    if modality == "RTSTRUCT" || modality == "RTDOSE" || modality == "RTPLAN" then
      false
    else
      o.CanReadFile filepath

/-- Whether objects of the class run their own `AppliesTo` (the content-sniffing
predicate of the spec) instead of the one inherited from `CustomMimeType`:
only `BaseDicomMimeType` defines one, and `DicomMimeType` inherits it. -/
def overridesAppliesTo : MimeClass → Bool
  | MimeClass.CustomMimeType => false
  | MimeClass.BaseDicomMimeType => true
  | MimeClass.DicomMimeType => true

/-- The descriptors of a registry that register the extension, in registry order. -/
def registrants (registry : List CustomMimeType) (ext : String) : List CustomMimeType :=
  registry.filter (fun m => decide (ext ∈ m.extensions))

end IOMimeTypes

end mitk

/-! ## The IGT player widget -/

/-- The Qt signals of `QmitkIGTPlayerWidget`. -/
inductive Signal where
  | PlayingStarted
  | PlayingResumed
  | PlayingPaused
  | PlayingStopped
  | PlayerUpdated
  deriving DecidableEq, Repr

/-- What a `QLCDNumber` shows: the argument of the last `display` call, which is a
`QString` or an `int`. -/
inductive LCDValue where
  | text (s : String)
  | number (n : Int)
  deriving DecidableEq, Repr

/-- Observable effects of a slot, in the order they happen. -/
inductive Effect (P : Type) where
  /-- `emit s()`. -/
  | emit (s : Signal)
  /-- `QMessageBox::warning(NULL, title, text)`. -/
  | warning (title text : String)
  /-- `m_Player->StopPlaying(); m_Player = NULL;` on a non-null player: the reference
  to the player, in the state `StopPlaying` left it, is dropped. -/
  | released (p : P)
  deriving DecidableEq, Repr

/-- The signals among the effects, in order. -/
def signalsOf {P : Type} : List (Effect P) → List Signal
  | [] => []
  | Effect.emit s :: fx => s :: signalsOf fx
  | _ :: fx => signalsOf fx

/-- What the widget calls but does not define: `mitk::NavigationDataPlayer` (states `P`),
`QFile::exists`, and the time stamp type `T` of `m_StartTime` with the three operations
the widget applies to it. -/
structure Externals (P T : Type) where
  /-- `mitk::NavigationDataPlayer::New()`. -/
  New : P
  SetFileName : P → String → P
  StartPlaying : P → P
  Resume : P → P
  Pause : P → P
  StopPlaying : P → P
  Update : P → P
  IsAtEnd : P → Bool
  /-- `GetOutput()->GetTimeStamp()`. -/
  GetOutputTimeStamp : P → T
  /-- `QFile(name).exists()`. -/
  fileExists : String → Bool
  /-- The time stamp written by `m_StartTime = -1` and `m_StartTime(-1.0)`. -/
  minusOne : T
  /-- The test `t < 0`. -/
  ltZero : T → Bool
  /-- The conversion `(int) (a - b)`. -/
  elapsed : T → T → Int

/-- The members of `QmitkIGTPlayerWidget` and the state of the Qt objects it owns. -/
structure QmitkIGTPlayerWidget (P T : Type) where
  /-- The smart pointer `m_Player`; `none` is `NULL`. -/
  m_Player : Option P
  m_StartTime : T
  m_CmpFilename : String
  /-- Whether `m_PlayingTimer` is running. -/
  timerActive : Bool
  /-- The interval of `m_PlayingTimer` in milliseconds. -/
  timerInterval : Int
  m_lcdNrMin : LCDValue
  m_lcdNrSec : LCDValue
  m_lcdNrMsec : LCDValue
  /-- Whether `m_Controls->m_pbPlay` is checked. -/
  m_pbPlayChecked : Bool
  /-- The text of `m_Controls->m_leInputFile`. -/
  m_leInputFile : String
  deriving DecidableEq, Repr

namespace QmitkIGTPlayerWidget

variable {P T : Type}

def ResetLCDNumbers (w : QmitkIGTPlayerWidget P T) : QmitkIGTPlayerWidget P T :=
  let w := { w with m_lcdNrMin := LCDValue.text "00" }
  let w := { w with m_lcdNrSec := LCDValue.text "00" }
  { w with m_lcdNrMsec := LCDValue.text "000" }

def CheckInputFileValid (x : Externals P T) (w : QmitkIGTPlayerWidget P T) :
    Bool × List (Effect P) :=
  if !x.fileExists w.m_CmpFilename then
    (false, [Effect.warning "IGTPlayer: Error"
      "No valid input file was loaded. Please load input file first!"])
  else
    (true, [])

/-- `OnPlayButtonClicked(checked)`. The result is `none` when the slot dereferences the
null `m_Player` (the pause branch calls `m_Player->Pause()` without a test). -/
def OnPlayButtonClicked (x : Externals P T) (w : QmitkIGTPlayerWidget P T) (checked : Bool) :
    Option (QmitkIGTPlayerWidget P T × List (Effect P)) :=
  let (valid, fx) := CheckInputFileValid x w
  if valid then
    if checked then
      match w.m_Player with
      | none =>
        let player := x.New
        let player := x.SetFileName player w.m_CmpFilename
        let player := x.StartPlaying player
        some ({ w with m_Player := some player, timerActive := true, timerInterval := 100 },
          fx ++ [Effect.emit Signal.PlayingStarted])
      | some player =>
        let player := x.Resume player
        some ({ w with m_Player := some player, timerActive := true, timerInterval := 100 },
          fx ++ [Effect.emit Signal.PlayingResumed])
    else
      match w.m_Player with
      | none => none
      | some player =>
        let player := x.Pause player
        some ({ w with m_Player := some player, timerActive := false },
          fx ++ [Effect.emit Signal.PlayingPaused])
  else
    some ({ w with m_pbPlayChecked := false }, fx)

def StopPlaying (x : Externals P T) (w : QmitkIGTPlayerWidget P T) :
    QmitkIGTPlayerWidget P T × List (Effect P) :=
  let w := { w with timerActive := false }
  let fx := [Effect.emit Signal.PlayingStopped]
  let fx := match w.m_Player with
    | some player => fx ++ [Effect.released (x.StopPlaying player)]
    | none => fx
  let w := { w with m_Player := none }
  let w := { w with m_StartTime := x.minusOne }
  let w := ResetLCDNumbers w
  ({ w with m_pbPlayChecked := false }, fx)

/-- The "calculation for playing time display" of `OnPlaying`, on the `int` value `msc`:
the displayed `(ms, s, min)`. C++ `%` and `/` truncate towards zero. -/
def playingTimeDisplay (msc : Int) : Int × Int × Int :=
  let ms := Int.tmod msc 1000
  let msc := Int.tdiv (msc - ms) 1000
  let s := Int.tmod msc 60
  let min := Int.tdiv (msc - s) 60
  (ms, s, min)

def OnPlaying (x : Externals P T) (w : QmitkIGTPlayerWidget P T) :
    QmitkIGTPlayerWidget P T × List (Effect P) :=
  match w.m_Player with
  | none => (w, [])
  | some player =>
    let w := if x.ltZero w.m_StartTime then
        { w with m_StartTime := x.GetOutputTimeStamp player }
      else w
    if !x.IsAtEnd player then
      let player := x.Update player
      let w := { w with m_Player := some player }
      let msc := x.elapsed (x.GetOutputTimeStamp player) w.m_StartTime
      let (ms, s, min) := playingTimeDisplay msc
      let w := { w with m_lcdNrMsec := LCDValue.number ms }
      let w := { w with m_lcdNrSec := LCDValue.number s }
      let w := { w with m_lcdNrMin := LCDValue.number min }
      (w, [Effect.emit Signal.PlayerUpdated])
    else
      StopPlaying x w

def OnGoToEnd (x : Externals P T) (w : QmitkIGTPlayerWidget P T) :
    QmitkIGTPlayerWidget P T × List (Effect P) :=
  let (w, fx) := StopPlaying x w
  (ResetLCDNumbers w, fx)

def SetInputFileName (x : Externals P T) (w : QmitkIGTPlayerWidget P T)
    (inputFileName : String) : QmitkIGTPlayerWidget P T × List (Effect P) :=
  let (w, fx) := OnGoToEnd x w
  let oldName := w.m_CmpFilename
  let w := { w with m_CmpFilename := "" }
  let w := { w with m_CmpFilename := inputFileName }
  if w.m_CmpFilename.isEmpty || !x.fileExists w.m_CmpFilename then
    let fx := fx ++ [Effect.warning "Warning"
      "Please enter valid path! Using previous path again."]
    let w := { w with m_CmpFilename := oldName }
    ({ w with m_leInputFile := w.m_CmpFilename }, fx)
  else
    (w, fx)

def OnGoToBegin (x : Externals P T) (w : QmitkIGTPlayerWidget P T) :
    QmitkIGTPlayerWidget P T × List (Effect P) :=
  let w := { w with timerActive := false }
  let fx : List (Effect P) := match w.m_Player with
    | some player => [Effect.released (x.StopPlaying player)]
    | none => []
  let w := { w with m_Player := none }
  let w := { w with m_StartTime := x.minusOne }
  let w := { w with m_pbPlayChecked := false }
  (ResetLCDNumbers w, fx)

end QmitkIGTPlayerWidget

/-! ## Concrete externals, for evaluating the definitions -/

/-- The calls a scripted player has received. -/
inductive PlayerCall where
  | SetFileName (name : String)
  | StartPlaying
  | Resume
  | Pause
  | StopPlaying
  | Update
  deriving DecidableEq, Repr

/-- A scripted player: the log of calls it received, the time stamps of its current
and later outputs. It is at its end when no later output is left. -/
structure ScriptedPlayer where
  calls : List PlayerCall
  current : Int
  later : List Int
  deriving DecidableEq, Repr

/-- Externals over scripted players, integer time stamps, and a file system whose
only file is `tracking.xml`. New players replay the outputs 1000, 1100, 63250. -/
def scripted : Externals ScriptedPlayer Int where
  New := { calls := [], current := 1000, later := [1100, 63250] }
  SetFileName p name := { p with calls := p.calls ++ [PlayerCall.SetFileName name] }
  StartPlaying p := { p with calls := p.calls ++ [PlayerCall.StartPlaying] }
  Resume p := { p with calls := p.calls ++ [PlayerCall.Resume] }
  Pause p := { p with calls := p.calls ++ [PlayerCall.Pause] }
  StopPlaying p := { p with calls := p.calls ++ [PlayerCall.StopPlaying] }
  Update p :=
    match p.later with
    | [] => { p with calls := p.calls ++ [PlayerCall.Update] }
    | t :: ts => { calls := p.calls ++ [PlayerCall.Update], current := t, later := ts }
  IsAtEnd p := p.later.isEmpty
  GetOutputTimeStamp p := p.current
  fileExists name := name == "tracking.xml"
  minusOne := -1
  ltZero t := decide (t < 0)
  elapsed a b := a - b

/-- The widget as the constructor leaves it, with the given input file name. -/
def freshWidget (name : String) : QmitkIGTPlayerWidget ScriptedPlayer Int :=
  { m_Player := none, m_StartTime := -1, m_CmpFilename := name, timerActive := false,
    timerInterval := 0, m_lcdNrMin := LCDValue.text "00", m_lcdNrSec := LCDValue.text "00",
    m_lcdNrMsec := LCDValue.text "000", m_pbPlayChecked := false, m_leInputFile := name }

/-- The widget after play was pressed on the fresh widget with the existing file
`tracking.xml`: its player is not at its end. -/
def playingWidget : QmitkIGTPlayerWidget ScriptedPlayer Int :=
  { freshWidget "tracking.xml" with
    m_Player := some { calls := [PlayerCall.SetFileName "tracking.xml", PlayerCall.StartPlaying],
                       current := 1000, later := [1100, 63250] },
    timerActive := true, timerInterval := 100, m_pbPlayChecked := true }

/-- The playing widget whose player has replayed all its outputs. -/
def finishedWidget : QmitkIGTPlayerWidget ScriptedPlayer Int :=
  { playingWidget with
    m_Player := some { calls := [PlayerCall.Update], current := 63250, later := [] },
    m_StartTime := 1000 }

/-- A playing widget that started at time stamp 1000 and whose player shows the output
of time stamp 1000 with the output of time stamp 63250 still to come. -/
def longPlayingWidget : QmitkIGTPlayerWidget ScriptedPlayer Int :=
  { playingWidget with
    m_Player := some { calls := [PlayerCall.StartPlaying], current := 1000, later := [63250] },
    m_StartTime := 1000 }

/-- A DICOM oracle over a small file system: `/data` is a directory that lists
`sub`, `a.txt`, `b.dcm`, `c.dcm`; a name matches when it ends in `.dcm`; `/data/b.dcm`
is a readable CT image, `/rt.dcm` a readable RTDOSE object, nothing else is readable. -/
def sampleOracle : mitk.IOMimeTypes.DicomOracle where
  FileIsDirectory p := p == "/data" || p == "sub"
  DirectoryFiles p := if p == "/data" then ["sub", "a.txt", "b.dcm", "c.dcm"] else []
  MatchesExtension _ f := (".dcm".data).isSuffixOf f.data
  ReadImageInformation f :=
    if f == "/data/b.dcm" then some (fun k => if k == "0008|0060" then some "CT" else none)
    else if f == "/rt.dcm" then some (fun k => if k == "0008|0060" then some "RTDOSE" else none)
    else none
  CanReadFile f := f == "/data/b.dcm" || f == "/rt.dcm"

/-! ## The rendering test helper -/

/-- Calls the rendering test helper makes to the libraries it wraps, and its log
output, in the order they happen. -/
inductive HelperEvent where
  /-- `mitk::IOUtil::LoadDataNode(filename)`. -/
  | LoadDataNode (filename : String)
  /-- `mitk::RenderingManager::GetInstance()->InitializeViews(...)`. -/
  | InitializeViews
  /-- `m_RenderWindow->GetRenderer()->PrepareRender()`. -/
  | PrepareRender
  /-- `GetVtkRenderWindow()->Render()`. -/
  | Render
  /-- `GetVtkRenderWindow()->GetInteractor()->Start()`. -/
  | InteractorStart
  /-- `MITK_ERROR << message`. -/
  | Error (message : String)
  deriving DecidableEq, Repr

/-- The file names of the `LoadDataNode` calls among the events, in order: one per
call of `AddToStorage`. -/
def loadRequests : List HelperEvent → List String
  | [] => []
  | HelperEvent.LoadDataNode filename :: events => filename :: loadRequests events
  | _ :: events => loadRequests events

/-- Whether the events contain a rendering call. -/
def rendered (events : List HelperEvent) : Bool :=
  events.any (fun e => e == HelperEvent.PrepareRender || e == HelperEvent.Render ||
    e == HelperEvent.InteractorStart)

/-- The members of `mitkRenderingTestHelper` the claims are about, for data nodes of
type `N`, and the trace of the calls it made. -/
structure mitkRenderingTestHelper (N : Type) where
  /-- The smart pointer `m_DataStorage`; `none` is `NULL`.
  Modelled from the spec: `DataStorage` is an external container holding data nodes;
  it is represented by the nodes it holds, in the order they were added. -/
  m_DataStorage : Option (List N)
  m_AutomaticallyCloseRenderWindow : Bool
  /-- The size given to the render window. -/
  size : Int × Int
  trace : List HelperEvent
  deriving DecidableEq, Repr

namespace mitkRenderingTestHelper

variable {N : Type}

/-- `mitk::IOUtil::LoadDataNode`, an oracle: the loaded node, or `Except.error what`
when it throws an `itk::ExceptionObject` `e` with `e.what() = what`. -/
abbrev Loader (N : Type) := String → Except String N

/-- `Initialize(width, height)` after the initialiser list of the constructors: a new,
empty data storage. The set-up of the render window and the GL information log are
left out. -/
def Initialize (width height : Int) : mitkRenderingTestHelper N :=
  { m_DataStorage := some [], m_AutomaticallyCloseRenderWindow := true,
    size := (width, height), trace := [] }

/-- `AddNodeToStorage(node)`; `none` when `m_DataStorage` is null. -/
def AddNodeToStorage (h : mitkRenderingTestHelper N) (node : N) :
    Option (mitkRenderingTestHelper N) :=
  match h.m_DataStorage with
  | none => none
  | some nodes =>
    some { h with m_DataStorage := some (nodes ++ [node]),
                  trace := h.trace ++ [HelperEvent.InitializeViews] }

/-- `AddToStorage(filename)`. -/
def AddToStorage (load : Loader N) (h : mitkRenderingTestHelper N) (filename : String) :
    Option (mitkRenderingTestHelper N) :=
  let h := { h with trace := h.trace ++ [HelperEvent.LoadDataNode filename] }
  match load filename with
  | Except.ok node => AddNodeToStorage h node
  | Except.error what =>
    some { h with trace := h.trace ++
      [HelperEvent.Error ("Failed loading test data \x27" ++ filename ++ "\x27: " ++ what)] }

/-- The loop of `SetInputFileNames` over the remaining values of `i`; `none` when
`argv[i]` is read beyond the end of `argv`. -/
def SetInputFileNames.loop (load : Loader N) (argv : List String) :
    List Nat → mitkRenderingTestHelper N → Option (mitkRenderingTestHelper N)
  | [], h => some h
  | i :: rest, h =>
    match argv[i]? with
    | none => none
    | some tmp =>
      if tmp != "-T" && tmp != "-V" then
        match AddToStorage load h tmp with
        | none => none
        | some h => SetInputFileNames.loop load argv rest h
      else
        some h

/-- `SetInputFileNames(argc, argv)`: `i` runs over `1, ..., argc - 1`. -/
def SetInputFileNames (load : Loader N) (h : mitkRenderingTestHelper N) (argc : Int)
    (argv : List String) : Option (mitkRenderingTestHelper N) :=
  SetInputFileNames.loop load argv (List.range' 1 (argc.toNat - 1)) h

/-- Constructor `mitkRenderingTestHelper(width, height)`. -/
def new (width height : Int) : mitkRenderingTestHelper N :=
  Initialize width height

/-- Constructor `mitkRenderingTestHelper(width, height, argc, argv)`. -/
def newWithArgs (load : Loader N) (width height : Int) (argc : Int) (argv : List String) :
    Option (mitkRenderingTestHelper N) :=
  SetInputFileNames load (Initialize width height) argc argv

def PrepareRender (h : mitkRenderingTestHelper N) : mitkRenderingTestHelper N :=
  { h with trace := h.trace ++ [HelperEvent.PrepareRender] }

/-- `Render()`. The condition is `IsNotNull() || GetAll()->Size() >= 1`: its right
operand is evaluated only for a null `m_DataStorage`, which it dereferences (`none`). -/
def Render (h : mitkRenderingTestHelper N) : Option (mitkRenderingTestHelper N) :=
  let condition : Option Bool :=
    if h.m_DataStorage.isSome then some true
    else
      match h.m_DataStorage with
      | none => none
      | some nodes => some (decide (nodes.length ≥ 1))
  match condition with
  | none => none
  | some true =>
    let h := { h with trace := h.trace ++ [HelperEvent.PrepareRender] }
    let h := { h with trace := h.trace ++ [HelperEvent.Render] }
    if h.m_AutomaticallyCloseRenderWindow == false then
      some { h with trace := h.trace ++ [HelperEvent.InteractorStart] }
    else
      some h
  | some false =>
    some { h with trace := h.trace ++ [HelperEvent.Error "No images loaded in data storage!"] }

/-- `CompareRenderWindowAgainstReference(argc, argv, threshold)`, with `vtkTesting::Test`
on the helper's render window as the oracle `Test`. -/
def CompareRenderWindowAgainstReference {D : Type} (Test : Int → List String → D → Int)
    (h : mitkRenderingTestHelper N) (argc : Int) (argv : List String) (threshold : D) :
    Bool × mitkRenderingTestHelper N :=
  let h := PrepareRender h
  if Test argc argv threshold == 1 then
    (true, h)
  else
    (false, h)

/-- The arguments after `argv[0]` up to, and without, the first `-T` or `-V`. -/
def inputFiles (argv : List String) : List String :=
  (argv.drop 1).takeWhile (fun a => a != "-T" && a != "-V")

end mitkRenderingTestHelper

/-! ## The flow bench application's workbench advisor -/

namespace QmitkFlowBenchApplicationWorkbenchAdvisor

def DEFAULT_PERSPECTIVE_ID : String := "org.mitk.qt.flowbenchapplication.defaultperspective"

def GetInitialWindowPerspectiveId : String := DEFAULT_PERSPECTIVE_ID

/-- The value the comment at the declaration of `DEFAULT_PERSPECTIVE_ID` in the header
gives for it. -/
def documentedDefaultPerspectiveId : String := "org.mitk.extapp.defaultperspective"

end QmitkFlowBenchApplicationWorkbenchAdvisor

/-! ## The thrombus view -/

namespace mitk

/-- The dynamic class of a `mitk::BaseData` object, as far as
`dynamic_cast<mitk::Image *>` tells: `Image` stands for `mitk::Image` and the classes
derived from it. -/
inductive BaseData where
  | Image
  | Surface
  | PointSet
  deriving DecidableEq, Repr

/-- A `mitk::DataNode`, with what `GetData()` returns; `none` is `NULL`. -/
structure DataNode where
  data : Option BaseData
  deriving DecidableEq, Repr

end mitk

/-- The state of `QmitkThrombusView` the selection handler writes. -/
structure QmitkThrombusView where
  /-- The flag last written by `m_Controls.labelWarning->setVisible`. -/
  labelWarningVisible : Bool
  deriving DecidableEq, Repr

namespace QmitkThrombusView

/-- `OnSelectionChanged(source, nodes)`; a null `DataNode::Pointer` is `none`. -/
def OnSelectionChanged (v : QmitkThrombusView) : List (Option mitk.DataNode) → QmitkThrombusView
  | [] => { v with labelWarningVisible := true }
  | node :: nodes =>
    let isImage : Bool :=
      match node with
      | none => false
      | some n => n.data == some mitk.BaseData.Image
    if isImage then
      { v with labelWarningVisible := false }
    else
      OnSelectionChanged v nodes

end QmitkThrombusView

/-! ## The DICOM content check: the examined file in the words of the spec -/

namespace mitk.IOMimeTypes

/-- The file `AppliesTo` examines as the spec words it: the path itself when it is not
a directory; otherwise the first entry of the directory, in listing order, that is not
a directory and matches an extension, as `path/name`; the path itself when there is no
such entry. -/
def examinedFileSpec (o : DicomOracle) (this : CustomMimeType) (path : String) : String :=
  if o.FileIsDirectory path then
    match (o.DirectoryFiles path).find?
        (fun name => !o.FileIsDirectory (path ++ "/" ++ name) && o.MatchesExtension this name) with
    | some name => path ++ "/" ++ name
    | none => path
  else path

end mitk.IOMimeTypes

/-! ## More concrete externals -/

/-- A loader that knows `a.nrrd` and `c.nrrd` and throws on every other file. -/
def sampleLoader : mitkRenderingTestHelper.Loader String := fun filename =>
  if filename == "a.nrrd" then Except.ok "node a"
  else if filename == "c.nrrd" then Except.ok "node c"
  else Except.error "cannot read"

/-- A file system in which the directory `/scans` lists the sub-directory `series.dcm`
before the file `slice1.dcm`; the process runs in another directory, so the bare names
`series.dcm` and `slice1.dcm` name nothing. -/
def nestedOracle : mitk.IOMimeTypes.DicomOracle where
  FileIsDirectory p := p == "." || p == ".." || p == "/scans" || p == "/scans/series.dcm"
  DirectoryFiles p := if p == "/scans" then [".", "..", "series.dcm", "slice1.dcm"] else []
  MatchesExtension _ f := (".dcm".data).isSuffixOf f.data
  ReadImageInformation _ := none
  CanReadFile _ := false

/-! ## Theorems: the MIME-type registry -/

namespace mitk.IOMimeTypes

/-- C1: `IOMimeTypes::Get` returns exactly 14 descriptors, with the listed names in
the listed order; the names are pairwise distinct, and the geometry-data descriptor
is not among them. -/
theorem Get_names :
    Get.length = 14 ∧
    Get.map (fun m => m.name) =
      ["application/vnd.mitk.image.nrrd", "application/vnd.mitk.image.nifti",
       "application/vnd.mitk.vtk.image", "application/vnd.mitk.vtk.parallel.image",
       "application/vnd.mitk.vtk.image.legacy", "application/vnd.mitk.image.dicom",
       "application/vnd.mitk.vtk.polydata", "application/vnd.mitk.vtk.parallel.polydata",
       "application/vnd.mitk.vtk.polydata.legacy", "application/vnd.mitk.stl",
       "application/vnd.mitk.obj", "application/vnd.mitk.ply",
       "application/vnd.mitk.image.raw", "application/vnd.mitk.pointset"] ∧
    (Get.map (fun m => m.name)).Nodup ∧
    GEOMETRY_DATA_MIMETYPE.name ∉ Get.map (fun m => m.name) ∧
    GEOMETRY_DATA_MIMETYPE ∉ Get := by
  refine ⟨by decide, by decide, by decide, by decide, by decide⟩

/-- C2: every descriptor returned by `IOMimeTypes::Get` has the listed extensions, in
insertion order, and the listed category; every category is one of Images, Surfaces,
Point Sets, and no extension list is empty. -/
theorem Get_extensions_categories :
    Get.map (fun m => (m.name, m.extensions, m.category)) =
      [("application/vnd.mitk.image.nrrd", ["nrrd", "nhdr"], "Images"),
       ("application/vnd.mitk.image.nifti",
          ["nii", "nii.gz", "hdr", "hdr.gz", "img", "img.gz", "nia"], "Images"),
       ("application/vnd.mitk.vtk.image", ["vti"], "Images"),
       ("application/vnd.mitk.vtk.parallel.image", ["pvti"], "Images"),
       ("application/vnd.mitk.vtk.image.legacy", ["vtk"], "Images"),
       ("application/vnd.mitk.image.dicom",
          ["gdcm", "dcm", "DCM", "dc3", "DC3", "ima", "img"], "Images"),
       ("application/vnd.mitk.vtk.polydata", ["vtp"], "Surfaces"),
       ("application/vnd.mitk.vtk.parallel.polydata", ["pvtp"], "Surfaces"),
       ("application/vnd.mitk.vtk.polydata.legacy", ["vtk"], "Surfaces"),
       ("application/vnd.mitk.stl", ["stl"], "Surfaces"),
       ("application/vnd.mitk.obj", ["obj"], "Surfaces"),
       ("application/vnd.mitk.ply", ["ply"], "Surfaces"),
       ("application/vnd.mitk.image.raw", ["raw"], "Images"),
       ("application/vnd.mitk.pointset", ["mps"], "Point Sets")] ∧
    (∀ m ∈ Get, m.category ∈ ["Images", "Surfaces", "Point Sets"]) ∧
    (∀ m ∈ Get, m.extensions ≠ []) := by
  refine ⟨by decide, by decide, by decide⟩

end mitk.IOMimeTypes

namespace mitk.IOMimeTypes

/-- Every extension some descriptor of the registry registers. -/
theorem mem_extensions_of_registered (ext : String) (m : CustomMimeType) (hm : m ∈ Get)
    (he : ext ∈ m.extensions) :
    ext ∈ ["nrrd", "nhdr", "nii", "nii.gz", "hdr", "hdr.gz", "img", "img.gz", "nia", "vti",
      "pvti", "vtk", "gdcm", "dcm", "DCM", "dc3", "DC3", "ima", "vtp", "pvtp", "stl", "obj",
      "ply", "raw", "mps"] := by
  have hall : ∀ m ∈ Get, ∀ e ∈ m.extensions,
      e ∈ ["nrrd", "nhdr", "nii", "nii.gz", "hdr", "hdr.gz", "img", "img.gz", "nia", "vti",
      "pvti", "vtk", "gdcm", "dcm", "DCM", "dc3", "DC3", "ima", "vtp", "pvtp", "stl", "obj",
      "ply", "raw", "mps"] := by decide
  exact hall m hm ext he

/-- C3 (as stated, refuted): the extension `vtk` is registered by two descriptors of the
registry (the legacy VTK image and the legacy VTK polydata), and no descriptor that
registers it carries a content-sniffing predicate. -/
theorem ambiguous_vtk_without_sniffing :
    ¬ (∀ ext : String, 2 ≤ (registrants Get ext).length →
        ∃ m ∈ registrants Get ext, overridesAppliesTo m.dynamicType = true) ∧
    (registrants Get "vtk").map (fun m => m.name) =
      ["application/vnd.mitk.vtk.image.legacy", "application/vnd.mitk.vtk.polydata.legacy"] ∧
    ∀ m ∈ registrants Get "vtk", overridesAppliesTo m.dynamicType = false := by
  have h2 : ∀ m ∈ registrants Get "vtk", overridesAppliesTo m.dynamicType = false := by
    decide
  refine ⟨?_, by decide, h2⟩
  intro h
  obtain ⟨m, hm, hs⟩ := h "vtk" (by decide)
  rw [h2 m hm] at hs
  exact Bool.false_ne_true hs

/-- C3 (amended): every extension other than `vtk` that more than one descriptor of
the registry registers is registered by the DICOM descriptor, which carries the
content-sniffing predicate; the only such extension is `img`. -/
theorem ambiguous_extension_sniffed (ext : String)
    (h : 2 ≤ (registrants Get ext).length) (hvtk : ext ≠ "vtk") :
    ext = "img" ∧
    ∃ m ∈ registrants Get ext,
      overridesAppliesTo m.dynamicType = true ∧ m.name = DICOM_MIMETYPE_NAME := by
  have hne : registrants Get ext ≠ [] := by
    intro h0
    rw [h0] at h
    simp at h
  obtain ⟨m, hm⟩ := List.exists_mem_of_ne_nil _ hne
  have hm2 := List.mem_filter.mp hm
  have hmem := mem_extensions_of_registered ext m hm2.1 (of_decide_eq_true hm2.2)
  have himg : ext = "img" := by
    simp only [List.mem_cons, List.mem_singleton, List.not_mem_nil, or_false] at hmem
    rcases hmem with h1 | h1 | h1 | h1 | h1 | h1 | h1 | h1 | h1 | h1 | h1 | h1 | h1 | h1 |
      h1 | h1 | h1 | h1 | h1 | h1 | h1 | h1 | h1 | h1 | h1 <;> subst h1 <;>
      first
        | rfl
        | exact absurd rfl hvtk
        | exact absurd h (by decide)
  subst himg
  exact ⟨rfl, by decide⟩

/-- Witness for C3 (amended), at the extension `img`, which the NIfTI and the DICOM
descriptor register. -/
theorem ambiguous_extension_sniffed_img :
    2 ≤ (registrants Get "img").length ∧ "img" ≠ "vtk" ∧
    ("img" = "img" ∧ ∃ m ∈ registrants Get "img",
      overridesAppliesTo m.dynamicType = true ∧ m.name = DICOM_MIMETYPE_NAME) :=
  ⟨by decide, by decide, ambiguous_extension_sniffed "img" (by decide) (by decide)⟩

end mitk.IOMimeTypes

/-! ## Theorems: the DICOM content check -/

namespace mitk.IOMimeTypes

/-- C4: with the GDCM reader as an oracle, `BaseDicomMimeType::AppliesTo` returns false
when reading the image information of the examined file throws; it returns false when
the modality tag `0008|0060` is RTSTRUCT, RTDOSE or RTPLAN, whatever `CanReadFile` says;
in every other case it returns the result of `CanReadFile` on the examined file. -/
theorem AppliesTo_cases (o : DicomOracle) (this : CustomMimeType) (path : String) :
    (o.ReadImageInformation (BaseDicomMimeType.filepath o this path) = none →
      BaseDicomMimeType.AppliesTo o this path = false) ∧
    (∀ dict modality,
      o.ReadImageInformation (BaseDicomMimeType.filepath o this path) = some dict →
      dict "0008|0060" = some modality →
      modality = "RTSTRUCT" ∨ modality = "RTDOSE" ∨ modality = "RTPLAN" →
      BaseDicomMimeType.AppliesTo o this path = false) ∧
    (∀ dict,
      o.ReadImageInformation (BaseDicomMimeType.filepath o this path) = some dict →
      ¬ ((dict "0008|0060").getD "" = "RTSTRUCT" ∨ (dict "0008|0060").getD "" = "RTDOSE" ∨
          (dict "0008|0060").getD "" = "RTPLAN") →
      BaseDicomMimeType.AppliesTo o this path =
        o.CanReadFile (BaseDicomMimeType.filepath o this path)) := by
  refine ⟨?_, ?_, ?_⟩
  · intro h
    simp [BaseDicomMimeType.AppliesTo, h]
  · intro dict modality h hm hrt
    simp only [BaseDicomMimeType.AppliesTo, h, hm, Option.getD_some]
    rcases hrt with rfl | rfl | rfl <;> simp
  · intro dict h hrt
    simp only [not_or] at hrt
    simp [BaseDicomMimeType.AppliesTo, h, hrt.1, hrt.2.1, hrt.2.2]

/-- Witness for C4 on the sample file system: `/nothing` cannot be read; `/rt.dcm` is an
RTDOSE object that `CanReadFile` accepts and `AppliesTo` rejects; the directory `/data`
is judged by its first matching file `/data/b.dcm`, a CT image. -/
theorem AppliesTo_cases_sample :
    BaseDicomMimeType.AppliesTo sampleOracle DicomMimeType "/nothing" = false ∧
    (sampleOracle.CanReadFile (BaseDicomMimeType.filepath sampleOracle DicomMimeType "/rt.dcm")
        = true ∧
      BaseDicomMimeType.AppliesTo sampleOracle DicomMimeType "/rt.dcm" = false) ∧
    (BaseDicomMimeType.filepath sampleOracle DicomMimeType "/data" = "/data/b.dcm" ∧
      BaseDicomMimeType.AppliesTo sampleOracle DicomMimeType "/data" = true) :=
  ⟨(AppliesTo_cases sampleOracle DicomMimeType "/nothing").1 rfl,
   ⟨by decide,
    (AppliesTo_cases sampleOracle DicomMimeType "/rt.dcm").2.1
      (fun k => if k == "0008|0060" then some "RTDOSE" else none) "RTDOSE"
      rfl (by decide) (by decide)⟩,
   ⟨by decide,
    ((AppliesTo_cases sampleOracle DicomMimeType "/data").2.2
      (fun k => if k == "0008|0060" then some "CT" else none)
      rfl (by decide)).trans (by decide)⟩⟩

end mitk.IOMimeTypes

/-! ## Theorems: the IGT player widget -/

namespace QmitkIGTPlayerWidget

variable {P T : Type}

/-- C6: when the stored input file does not exist, `OnPlayButtonClicked`, for either
value of `checked`, returns, emits no signal (its only effect is the warning box), leaves
the player and the timer as they were, and leaves the play button unchecked. -/
theorem OnPlayButtonClicked_invalid (x : Externals P T) (w : QmitkIGTPlayerWidget P T)
    (checked : Bool) (hfile : x.fileExists w.m_CmpFilename = false) :
    ∃ w' fx, OnPlayButtonClicked x w checked = some (w', fx) ∧
      signalsOf fx = [] ∧
      fx = [Effect.warning "IGTPlayer: Error"
        "No valid input file was loaded. Please load input file first!"] ∧
      w'.m_Player = w.m_Player ∧
      w'.timerActive = w.timerActive ∧ w'.timerInterval = w.timerInterval ∧
      w'.m_pbPlayChecked = false ∧
      w' = { w with m_pbPlayChecked := false } := by
  refine ⟨{ w with m_pbPlayChecked := false }, _, ?_, ?_, rfl, rfl, rfl, rfl, rfl, rfl⟩
  · simp [OnPlayButtonClicked, CheckInputFileValid, hfile]
  · rfl

/-- Witness for C6: the fresh widget whose input file `missing.xml` does not exist,
play pressed. -/
theorem OnPlayButtonClicked_invalid_fresh :
    scripted.fileExists (freshWidget "missing.xml").m_CmpFilename = false ∧
    ∃ w' fx, OnPlayButtonClicked scripted (freshWidget "missing.xml") true = some (w', fx) ∧
      signalsOf fx = [] ∧
      fx = [Effect.warning "IGTPlayer: Error"
        "No valid input file was loaded. Please load input file first!"] ∧
      w'.m_Player = (freshWidget "missing.xml").m_Player ∧
      w'.timerActive = (freshWidget "missing.xml").timerActive ∧
      w'.timerInterval = (freshWidget "missing.xml").timerInterval ∧
      w'.m_pbPlayChecked = false ∧
      w' = { freshWidget "missing.xml" with m_pbPlayChecked := false } :=
  ⟨by decide, OnPlayButtonClicked_invalid scripted (freshWidget "missing.xml") true (by decide)⟩

end QmitkIGTPlayerWidget

namespace QmitkIGTPlayerWidget

variable {P T : Type}

/-- The state `StopPlaying` leaves, field by field. -/
theorem StopPlaying_state (x : Externals P T) (w : QmitkIGTPlayerWidget P T) :
    (StopPlaying x w).1 =
      { w with timerActive := false, m_Player := none, m_StartTime := x.minusOne,
               m_lcdNrMin := LCDValue.text "00", m_lcdNrSec := LCDValue.text "00",
               m_lcdNrMsec := LCDValue.text "000", m_pbPlayChecked := false } := by
  cases w with
  | mk player start name active interval lmin lsec lmsec pb le =>
    cases player <;> rfl

/-- The effects of `StopPlaying`. -/
theorem StopPlaying_effects (x : Externals P T) (w : QmitkIGTPlayerWidget P T) :
    (StopPlaying x w).2 =
      match w.m_Player with
      | some p => [Effect.emit Signal.PlayingStopped, Effect.released (x.StopPlaying p)]
      | none => [Effect.emit Signal.PlayingStopped] := by
  cases w with
  | mk player start name active interval lmin lsec lmsec pb le =>
    cases player <;> rfl

/-- C7 (as stated, refuted): the state `StopPlaying` leaves depends on the state before
the call; two widgets that differ in the stored input file name still differ after it. -/
theorem StopPlaying_depends_on_state :
    (StopPlaying scripted (freshWidget "a.xml")).1 ≠
      (StopPlaying scripted (freshWidget "b.xml")).1 ∧
    ¬ (∀ w₁ w₂ : QmitkIGTPlayerWidget ScriptedPlayer Int,
        (StopPlaying scripted w₁).1 = (StopPlaying scripted w₂).1) := by
  have h : (StopPlaying scripted (freshWidget "a.xml")).1 ≠
      (StopPlaying scripted (freshWidget "b.xml")).1 := by decide
  exact ⟨h, fun hall => h (hall _ _)⟩

/-- C7 (amended): from every widget state `StopPlaying` leaves the timer inactive, the
player null, the start time -1, the LCDs at 00 / 00 / 000 and the play button unchecked,
and emits `PlayingStopped` exactly once; these fields do not depend on the state before
the call, the stored input file name, the timer interval and the input-file line edit
are kept, and applying `StopPlaying` twice gives the same state as applying it once. -/
theorem StopPlaying_resets (x : Externals P T) (w : QmitkIGTPlayerWidget P T) :
    (StopPlaying x w).1.timerActive = false ∧
    (StopPlaying x w).1.m_Player = none ∧
    (StopPlaying x w).1.m_StartTime = x.minusOne ∧
    (StopPlaying x w).1.m_lcdNrMin = LCDValue.text "00" ∧
    (StopPlaying x w).1.m_lcdNrSec = LCDValue.text "00" ∧
    (StopPlaying x w).1.m_lcdNrMsec = LCDValue.text "000" ∧
    (StopPlaying x w).1.m_pbPlayChecked = false ∧
    signalsOf (StopPlaying x w).2 = [Signal.PlayingStopped] ∧
    (StopPlaying x w).1.m_CmpFilename = w.m_CmpFilename ∧
    (StopPlaying x w).1.timerInterval = w.timerInterval ∧
    (StopPlaying x w).1.m_leInputFile = w.m_leInputFile ∧
    (∀ v : QmitkIGTPlayerWidget P T,
      v.m_CmpFilename = w.m_CmpFilename → v.timerInterval = w.timerInterval →
      v.m_leInputFile = w.m_leInputFile → (StopPlaying x v).1 = (StopPlaying x w).1) ∧
    (StopPlaying x (StopPlaying x w).1).1 = (StopPlaying x w).1 := by
  have hsig : signalsOf (StopPlaying x w).2 = [Signal.PlayingStopped] := by
    rw [StopPlaying_effects]
    cases w.m_Player <;> rfl
  have hv : ∀ v : QmitkIGTPlayerWidget P T,
      v.m_CmpFilename = w.m_CmpFilename → v.timerInterval = w.timerInterval →
      v.m_leInputFile = w.m_leInputFile → (StopPlaying x v).1 = (StopPlaying x w).1 := by
    intro v h1 h2 h3
    rw [StopPlaying_state, StopPlaying_state, h1, h2, h3]
  have hs := StopPlaying_state x w
  refine ⟨?_, ?_, ?_, ?_, ?_, ?_, ?_, hsig, ?_, ?_, ?_, hv, ?_⟩
  · rw [hs]
  · rw [hs]
  · rw [hs]
  · rw [hs]
  · rw [hs]
  · rw [hs]
  · rw [hs]
  · rw [hs]
  · rw [hs]
  · rw [hs]
  · exact hv _ (by rw [hs]) (by rw [hs]) (by rw [hs])

/-- C8: one timer tick. With no player `OnPlaying` changes nothing and emits nothing.
With a player at its end it does exactly what `StopPlaying` does (also when run on the
state whose negative start time was replaced first): `PlayingStopped` only, player
released. With a player not at its end the player is updated once, `PlayerUpdated` is
the only effect, and a negative start time has become the time stamp of the player's
output before the update, a non-negative one is kept. -/
theorem OnPlaying_cases (x : Externals P T) (w : QmitkIGTPlayerWidget P T) :
    (w.m_Player = none → OnPlaying x w = (w, [])) ∧
    (∀ p, w.m_Player = some p → x.IsAtEnd p = true →
      OnPlaying x w = StopPlaying x w ∧
      (x.ltZero w.m_StartTime = true →
        OnPlaying x w = StopPlaying x { w with m_StartTime := x.GetOutputTimeStamp p }) ∧
      signalsOf (OnPlaying x w).2 = [Signal.PlayingStopped] ∧
      (OnPlaying x w).2 =
        [Effect.emit Signal.PlayingStopped, Effect.released (x.StopPlaying p)] ∧
      (OnPlaying x w).1.m_Player = none) ∧
    (∀ p, w.m_Player = some p → x.IsAtEnd p = false →
      (OnPlaying x w).1.m_Player = some (x.Update p) ∧
      (OnPlaying x w).2 = [Effect.emit Signal.PlayerUpdated] ∧
      signalsOf (OnPlaying x w).2 = [Signal.PlayerUpdated] ∧
      (OnPlaying x w).1.m_StartTime =
        (if x.ltZero w.m_StartTime then x.GetOutputTimeStamp p else w.m_StartTime) ∧
      (OnPlaying x w).1.timerActive = w.timerActive) := by
  refine ⟨?_, ?_, ?_⟩
  · intro hp
    simp [OnPlaying, hp]
  · intro p hp hend
    have h1 : OnPlaying x w = StopPlaying x w := by
      cases w with
      | mk player start name active interval lmin lsec lmsec pb le =>
        cases hp
        cases hneg : x.ltZero start <;> (simp [OnPlaying, hend, hneg]; try rfl)
    have h2 : StopPlaying x { w with m_StartTime := x.GetOutputTimeStamp p } =
        StopPlaying x w := by
      cases w with
      | mk player start name active interval lmin lsec lmsec pb le =>
        cases hp
        rfl
    refine ⟨h1, fun _ => h1.trans h2.symm, ?_, ?_, ?_⟩
    · rw [h1, StopPlaying_effects, hp]; rfl
    · rw [h1, StopPlaying_effects, hp]
    · rw [h1, StopPlaying_state]
  · intro p hp hend
    cases w with
    | mk player start name active interval lmin lsec lmsec pb le =>
      cases hp
      cases hneg : x.ltZero start <;> simp [OnPlaying, hend, hneg, signalsOf]

end QmitkIGTPlayerWidget

namespace QmitkIGTPlayerWidget

/-- Witness for C8: a tick on the fresh widget (no player), on the finished widget
(player at its end) and on the playing widget (player not at its end, start time -1). -/
theorem OnPlaying_cases_scripted :
    OnPlaying scripted (freshWidget "tracking.xml") = (freshWidget "tracking.xml", []) ∧
    (OnPlaying scripted finishedWidget = StopPlaying scripted finishedWidget ∧
      signalsOf (OnPlaying scripted finishedWidget).2 = [Signal.PlayingStopped] ∧
      (OnPlaying scripted finishedWidget).1.m_Player = none) ∧
    ((OnPlaying scripted playingWidget).1.m_Player =
        some (scripted.Update { calls := [PlayerCall.SetFileName "tracking.xml",
                                          PlayerCall.StartPlaying],
                                current := 1000, later := [1100, 63250] }) ∧
      signalsOf (OnPlaying scripted playingWidget).2 = [Signal.PlayerUpdated] ∧
      (OnPlaying scripted playingWidget).1.m_StartTime = 1000 ∧
      (OnPlaying scripted playingWidget).1.m_lcdNrMsec = LCDValue.number 100) :=
  ⟨(OnPlaying_cases scripted (freshWidget "tracking.xml")).1 (by decide),
   ⟨((OnPlaying_cases scripted finishedWidget).2.1 _ rfl (by decide)).1,
    ((OnPlaying_cases scripted finishedWidget).2.1 _ rfl (by decide)).2.2.1,
    ((OnPlaying_cases scripted finishedWidget).2.1 _ rfl (by decide)).2.2.2.2⟩,
   ⟨((OnPlaying_cases scripted playingWidget).2.2 _ rfl (by decide)).1,
    ((OnPlaying_cases scripted playingWidget).2.2 _ rfl (by decide)).2.2.1,
    ((OnPlaying_cases scripted playingWidget).2.2 _ rfl (by decide)).2.2.2.1.trans (by decide),
    by decide⟩⟩

variable {P T : Type}

/-- C9: `SetInputFileName` first stops playback as `StopPlaying` does (same effects
first; player null, timer inactive, start time -1 afterwards). If the given name is
empty or names no existing file, the stored input file name is the one stored before the
call; otherwise it is the given name. -/
theorem SetInputFileName_name (x : Externals P T) (w : QmitkIGTPlayerWidget P T)
    (inputFileName : String) :
    (inputFileName.isEmpty = true ∨ x.fileExists inputFileName = false →
      (SetInputFileName x w inputFileName).1.m_CmpFilename = w.m_CmpFilename) ∧
    (inputFileName.isEmpty = false → x.fileExists inputFileName = true →
      (SetInputFileName x w inputFileName).1.m_CmpFilename = inputFileName) ∧
    (SetInputFileName x w inputFileName).1.m_Player = none ∧
    (SetInputFileName x w inputFileName).1.timerActive = false ∧
    (SetInputFileName x w inputFileName).1.m_StartTime = x.minusOne ∧
    (StopPlaying x w).2 <+: (SetInputFileName x w inputFileName).2 ∧
    signalsOf (SetInputFileName x w inputFileName).2 = [Signal.PlayingStopped] := by
  have hs := StopPlaying_state x w
  have hsig : signalsOf (StopPlaying x w).2 = [Signal.PlayingStopped] := by
    rw [StopPlaying_effects]
    cases w.m_Player <;> rfl
  have hsig2 : signalsOf ((StopPlaying x w).2 ++
      [Effect.warning "Warning" "Please enter valid path! Using previous path again."]) =
      [Signal.PlayingStopped] := by
    rw [StopPlaying_effects]
    cases w.m_Player <;> rfl
  by_cases hbad : (inputFileName.isEmpty || !x.fileExists inputFileName) = true
  · have hr : SetInputFileName x w inputFileName =
        ({ ResetLCDNumbers (StopPlaying x w).1 with
            m_CmpFilename := w.m_CmpFilename, m_leInputFile := w.m_CmpFilename },
         (StopPlaying x w).2 ++
          [Effect.warning "Warning" "Please enter valid path! Using previous path again."]) := by
      simp only [SetInputFileName, OnGoToEnd, hbad, if_true]
      rw [hs]
      rfl
    rw [hr]
    refine ⟨fun _ => rfl, ?_, ?_, ?_, ?_, List.prefix_append _ _, hsig2⟩
    · intro h1 h2
      simp [h1, h2] at hbad
    · show (StopPlaying x w).1.m_Player = none
      rw [hs]
    · show (StopPlaying x w).1.timerActive = false
      rw [hs]
    · show (StopPlaying x w).1.m_StartTime = x.minusOne
      rw [hs]
  · have hr : SetInputFileName x w inputFileName =
        ({ ResetLCDNumbers (StopPlaying x w).1 with m_CmpFilename := inputFileName },
         (StopPlaying x w).2) := by
      simp only [SetInputFileName, OnGoToEnd, hbad]
      rfl
    rw [hr]
    refine ⟨?_, fun _ _ => rfl, ?_, ?_, ?_, List.prefix_refl _, hsig⟩
    · intro h
      exfalso
      apply hbad
      rcases h with h | h <;> simp [h]
    · show (StopPlaying x w).1.m_Player = none
      rw [hs]
    · show (StopPlaying x w).1.timerActive = false
      rw [hs]
    · show (StopPlaying x w).1.m_StartTime = x.minusOne
      rw [hs]

/-- Witness for C9: on the playing widget, the missing file `missing.xml` and the empty
name keep `tracking.xml`; on the fresh widget for `old.xml`, the existing file
`tracking.xml` is stored. -/
theorem SetInputFileName_name_scripted :
    (SetInputFileName scripted playingWidget "missing.xml").1.m_CmpFilename = "tracking.xml" ∧
    (SetInputFileName scripted playingWidget "").1.m_CmpFilename = "tracking.xml" ∧
    (SetInputFileName scripted (freshWidget "old.xml") "tracking.xml").1.m_CmpFilename =
      "tracking.xml" ∧
    (SetInputFileName scripted playingWidget "missing.xml").1.m_Player = none :=
  ⟨(SetInputFileName_name scripted playingWidget "missing.xml").1 (Or.inr (by decide)),
   (SetInputFileName_name scripted playingWidget "").1 (Or.inl (by decide)),
   (SetInputFileName_name scripted (freshWidget "old.xml") "tracking.xml").2.1
     (by decide) (by decide),
   (SetInputFileName_name scripted playingWidget "missing.xml").2.2.1⟩

/-- The calculation for the playing time display on a non-negative `int`: the triple
`(e mod 1000, (e div 1000) mod 60, e div 60000)`, with its bounds and recomposition. -/
theorem playingTimeDisplay_decomposition (e : Int) (he : 0 ≤ e) :
    playingTimeDisplay e = (e % 1000, (e / 1000) % 60, e / 60000) ∧
    0 ≤ (playingTimeDisplay e).1 ∧ (playingTimeDisplay e).1 < 1000 ∧
    0 ≤ (playingTimeDisplay e).2.1 ∧ (playingTimeDisplay e).2.1 < 60 ∧
    0 ≤ (playingTimeDisplay e).2.2 ∧
    (playingTimeDisplay e).2.2 * 60000 + (playingTimeDisplay e).2.1 * 1000 +
      (playingTimeDisplay e).1 = e := by
  have hms : Int.tmod e 1000 = e % 1000 := Int.tmod_eq_emod he (by decide)
  have h1 : 0 ≤ e - e % 1000 := by omega
  have hq : Int.tdiv (e - e % 1000) 1000 = e / 1000 := by
    rw [Int.tdiv_eq_ediv h1 (by decide)]
    omega
  have h2 : 0 ≤ e / 1000 := by omega
  have hs : Int.tmod (e / 1000) 60 = (e / 1000) % 60 := Int.tmod_eq_emod h2 (by decide)
  have h3 : 0 ≤ e / 1000 - (e / 1000) % 60 := by omega
  have hm : Int.tdiv (e / 1000 - (e / 1000) % 60) 60 = e / 60000 := by
    rw [Int.tdiv_eq_ediv h3 (by decide)]
    omega
  have hd : playingTimeDisplay e = (e % 1000, (e / 1000) % 60, e / 60000) := by
    simp only [playingTimeDisplay, hms, hq, hs, hm]
  rw [hd]
  refine ⟨rfl, ?_, ?_, ?_, ?_, ?_, ?_⟩ <;> dsimp only <;> omega

/-- The calculation at 62250 ms: 1 min, 2 s, 250 ms. -/
theorem playingTimeDisplay_decomposition_62250 :
    (0 : Int) ≤ 62250 ∧ playingTimeDisplay 62250 = (250, 2, 1) :=
  ⟨by decide, (playingTimeDisplay_decomposition 62250 (by decide)).1.trans (by decide)⟩

end QmitkIGTPlayerWidget

namespace QmitkIGTPlayerWidget

variable {P T : Type}

/-- C11: from every widget state `OnGoToBegin` emits no signal, and the state it leaves
(timer inactive, player null, start time -1, play button unchecked, LCDs at
00 / 00 / 000) is the state `StopPlaying` leaves from the same starting state. -/
theorem OnGoToBegin_as_StopPlaying (x : Externals P T) (w : QmitkIGTPlayerWidget P T) :
    signalsOf (OnGoToBegin x w).2 = [] ∧
    (OnGoToBegin x w).1 = (StopPlaying x w).1 ∧
    (OnGoToBegin x w).1.timerActive = false ∧
    (OnGoToBegin x w).1.m_Player = none ∧
    (OnGoToBegin x w).1.m_StartTime = x.minusOne ∧
    (OnGoToBegin x w).1.m_pbPlayChecked = false ∧
    (OnGoToBegin x w).1.m_lcdNrMin = LCDValue.text "00" ∧
    (OnGoToBegin x w).1.m_lcdNrSec = LCDValue.text "00" ∧
    (OnGoToBegin x w).1.m_lcdNrMsec = LCDValue.text "000" ∧
    (StopPlaying x w).2 = Effect.emit Signal.PlayingStopped :: (OnGoToBegin x w).2 := by
  cases w with
  | mk player start name active interval lmin lsec lmsec pb le =>
    cases player <;> exact ⟨rfl, rfl, rfl, rfl, rfl, rfl, rfl, rfl, rfl, rfl⟩

end QmitkIGTPlayerWidget

/-! ## Theorems: the rendering test helper -/

namespace mitkRenderingTestHelper

variable {N : Type}

/-- C13 (the code at the failing input): on a helper as the constructor leaves it, with
an initialized and empty data storage, `Render` performs the rendering calls and logs
no error. -/
theorem Render_empty_storage :
    (new 640 480 : mitkRenderingTestHelper String).m_DataStorage = some [] ∧
    Render (new 640 480 : mitkRenderingTestHelper String) =
      some { (new 640 480 : mitkRenderingTestHelper String) with
             trace := [HelperEvent.PrepareRender, HelperEvent.Render] } ∧
    (Render (new 640 480 : mitkRenderingTestHelper String)).map (fun h => rendered h.trace) =
      some true ∧
    (Render (new 640 480 : mitkRenderingTestHelper String)).map
        (fun h => decide (HelperEvent.Error "No images loaded in data storage!" ∈ h.trace)) =
      some false := by
  refine ⟨by decide, by decide, by decide, by decide⟩

/-- C14: `CompareRenderWindowAgainstReference` returns true if and only if
`vtkTesting::Test` returns 1; for 0, 2, 3 and every other value it returns false. Its
only other effect is the call of `PrepareRender`. -/
theorem CompareRenderWindowAgainstReference_iff {D : Type} (Test : Int → List String → D → Int)
    (h : mitkRenderingTestHelper N) (argc : Int) (argv : List String) (threshold : D) :
    ((CompareRenderWindowAgainstReference Test h argc argv threshold).1 = true ↔
      Test argc argv threshold = 1) ∧
    (Test argc argv threshold ≠ 1 →
      (CompareRenderWindowAgainstReference Test h argc argv threshold).1 = false) ∧
    (Test argc argv threshold = 0 ∨ Test argc argv threshold = 2 ∨
        Test argc argv threshold = 3 →
      (CompareRenderWindowAgainstReference Test h argc argv threshold).1 = false) ∧
    (CompareRenderWindowAgainstReference Test h argc argv threshold).2 = PrepareRender h := by
  unfold CompareRenderWindowAgainstReference
  by_cases h1 : Test argc argv threshold = 1
  · simp [h1]
  · have hb : (Test argc argv threshold == 1) = false := by simpa using h1
    simp [h1, hb]

/-- Witness for C14: a test oracle that passes (1) without arguments and reports
"not run" (2) otherwise. -/
theorem CompareRenderWindowAgainstReference_iff_sample :
    (CompareRenderWindowAgainstReference (fun argc _ (_ : Nat) => if argc ≤ 1 then 1 else 2)
        (new 640 480 : mitkRenderingTestHelper String) 1 ["test"] 0).1 = true ∧
    (CompareRenderWindowAgainstReference (fun argc _ (_ : Nat) => if argc ≤ 1 then 1 else 2)
        (new 640 480 : mitkRenderingTestHelper String) 3 ["test", "-V", "ref.png"] 0).1 = false :=
  ⟨(CompareRenderWindowAgainstReference_iff (fun argc _ (_ : Nat) => if argc ≤ 1 then 1 else 2)
      (new 640 480 : mitkRenderingTestHelper String) 1 ["test"] 0).1.mpr (by decide),
   (CompareRenderWindowAgainstReference_iff (fun argc _ (_ : Nat) => if argc ≤ 1 then 1 else 2)
      (new 640 480 : mitkRenderingTestHelper String) 3 ["test", "-V", "ref.png"] 0).2.2.1
      (Or.inr (Or.inl (by decide)))⟩

end mitkRenderingTestHelper

/-! ## Theorems: the workbench advisor and the thrombus view -/

namespace QmitkFlowBenchApplicationWorkbenchAdvisor

/-- C16 (the code at the failing input): `GetInitialWindowPerspectiveId` returns
`DEFAULT_PERSPECTIVE_ID`, whose value is
`org.mitk.qt.flowbenchapplication.defaultperspective` and not the
`org.mitk.extapp.defaultperspective` documented at its declaration. -/
theorem GetInitialWindowPerspectiveId_value :
    GetInitialWindowPerspectiveId = DEFAULT_PERSPECTIVE_ID ∧
    DEFAULT_PERSPECTIVE_ID = "org.mitk.qt.flowbenchapplication.defaultperspective" ∧
    documentedDefaultPerspectiveId = "org.mitk.extapp.defaultperspective" ∧
    GetInitialWindowPerspectiveId ≠ documentedDefaultPerspectiveId := by
  refine ⟨rfl, rfl, rfl, by decide⟩

end QmitkFlowBenchApplicationWorkbenchAdvisor

namespace QmitkThrombusView

/-- C19: for every list of selected nodes, after `OnSelectionChanged` the warning label
is hidden if and only if some node of the list is non-null and holds Image data, and it
is visible otherwise; for the empty list it is visible. -/
theorem OnSelectionChanged_warning (v : QmitkThrombusView)
    (nodes : List (Option mitk.DataNode)) :
    ((OnSelectionChanged v nodes).labelWarningVisible = false ↔
      ∃ n ∈ nodes, ∃ d, n = some d ∧ d.data = some mitk.BaseData.Image) ∧
    ((OnSelectionChanged v nodes).labelWarningVisible = true ↔
      ¬ ∃ n ∈ nodes, ∃ d, n = some d ∧ d.data = some mitk.BaseData.Image) ∧
    (OnSelectionChanged v []).labelWarningVisible = true := by
  have key : (OnSelectionChanged v nodes).labelWarningVisible = false ↔
      ∃ n ∈ nodes, ∃ d, n = some d ∧ d.data = some mitk.BaseData.Image := by
    induction nodes with
    | nil => simp [OnSelectionChanged]
    | cons node rest ih =>
      cases node with
      | none => simpa [OnSelectionChanged] using ih
      | some d =>
        by_cases hd : d.data = some mitk.BaseData.Image
        · simp [OnSelectionChanged, hd]
        · simpa [OnSelectionChanged, hd] using ih
  refine ⟨key, ?_, rfl⟩
  rw [← key]
  cases (OnSelectionChanged v nodes).labelWarningVisible <;> simp

end QmitkThrombusView

/-! ## Theorems: the file the DICOM content check examines -/

namespace mitk.IOMimeTypes

/-- C17 (the code at the failing input): in the directory `/scans`, whose first
matching entry `series.dcm` is a sub-directory, `AppliesTo` examines
`/scans/series.dcm`, a directory, where the first entry that is not a directory and
matches is `slice1.dcm`: the code tests the bare entry name for being a directory. -/
theorem filepath_nested_directory :
    BaseDicomMimeType.filepath nestedOracle DicomMimeType "/scans" = "/scans/series.dcm" ∧
    nestedOracle.FileIsDirectory "/scans/series.dcm" = true ∧
    examinedFileSpec nestedOracle DicomMimeType "/scans" = "/scans/slice1.dcm" ∧
    BaseDicomMimeType.filepath nestedOracle DicomMimeType "/scans" ≠
      examinedFileSpec nestedOracle DicomMimeType "/scans" := by
  refine ⟨by decide, by decide, by decide, by decide⟩

end mitk.IOMimeTypes

/-! ## Theorems: the input files of the rendering test helper -/

namespace mitkRenderingTestHelper

variable {N : Type}

/-- The load requests of two traces in a row. -/
theorem loadRequests_append (a b : List HelperEvent) :
    loadRequests (a ++ b) = loadRequests a ++ loadRequests b := by
  induction a with
  | nil => rfl
  | cons e rest ih =>
    cases e <;> simp [loadRequests, ih]

/-- One call of `AddToStorage` on an initialized storage returns, requests the file
once, and adds the loaded node, if there is one, at the end of the storage. -/
theorem AddToStorage_initialized (load : Loader N) (h : mitkRenderingTestHelper N)
    (nodes : List N) (filename : String) (hs : h.m_DataStorage = some nodes) :
    ∃ h', AddToStorage load h filename = some h' ∧
      h'.m_DataStorage = some (nodes ++ ((load filename).toOption).toList) ∧
      loadRequests h'.trace = loadRequests h.trace ++ [filename] := by
  cases hl : load filename with
  | error what =>
    refine ⟨{ h with trace := h.trace ++ [HelperEvent.LoadDataNode filename] ++
        [HelperEvent.Error ("Failed loading test data \x27" ++ filename ++ "\x27: " ++ what)] },
      ?_, ?_, ?_⟩
    · simp only [AddToStorage, hl]
    · simp [hs, Except.toOption]
    · simp [loadRequests_append, loadRequests]
  | ok node =>
    refine ⟨{ h with m_DataStorage := some (nodes ++ [node]),
                     trace := h.trace ++ [HelperEvent.LoadDataNode filename] ++
                       [HelperEvent.InitializeViews] }, ?_, ?_, ?_⟩
    · simp only [AddToStorage, hl, AddNodeToStorage, hs]
    · simp [Except.toOption]
    · simp [loadRequests_append, loadRequests]

/-- The loop of `SetInputFileNames` from index `k` on, on an initialized storage:
it returns, requests the arguments from `argv[k]` up to the first `-T` or `-V`, and
adds the nodes that could be loaded. -/
theorem loop_initialized (load : Loader N) (argv : List String) :
    ∀ (m k : Nat) (h : mitkRenderingTestHelper N) (nodes : List N),
      k + m = argv.length → h.m_DataStorage = some nodes →
      ∃ h', SetInputFileNames.loop load argv (List.range' k m) h = some h' ∧
        h'.m_DataStorage = some (nodes ++
          ((argv.drop k).takeWhile (fun a => a != "-T" && a != "-V")).filterMap
            (fun f => (load f).toOption)) ∧
        loadRequests h'.trace = loadRequests h.trace ++
          (argv.drop k).takeWhile (fun a => a != "-T" && a != "-V") := by
  intro m
  induction m with
  | zero =>
    intro k h nodes hk hs
    have hdrop : argv.drop k = [] := List.drop_eq_nil_of_le (by omega)
    exact ⟨h, by simp [SetInputFileNames.loop], by simp [hdrop, hs], by simp [hdrop]⟩
  | succ m ih =>
    intro k h nodes hk hs
    have hlt : k < argv.length := by omega
    have hdrop : argv.drop k = argv[k] :: argv.drop (k + 1) := List.drop_eq_getElem_cons hlt
    have hget : argv[k]? = some argv[k] := List.getElem?_eq_getElem hlt
    rw [List.range'_succ, hdrop]
    by_cases hp : (argv[k] != "-T" && argv[k] != "-V") = true
    · obtain ⟨h1, hadd, hst1, htr1⟩ := AddToStorage_initialized load h nodes argv[k] hs
      obtain ⟨h2, hloop, hst2, htr2⟩ := ih (k + 1) h1 _ (by omega) hst1
      refine ⟨h2, ?_, ?_, ?_⟩
      · simp only [SetInputFileNames.loop, hget, hp, if_true, hadd]
        exact hloop
      · rw [hst2]
        simp only [List.takeWhile_cons, hp, if_true]
        cases hl : load argv[k] with
        | error what => simp [Except.toOption, hl]
        | ok node => simp [Except.toOption, hl]
      · rw [htr2, htr1]
        simp only [List.takeWhile_cons, hp, if_true]
        simp
    · refine ⟨h, ?_, ?_, ?_⟩
      · simp only [SetInputFileNames.loop, hget, hp]
        rfl
      · simp only [List.takeWhile_cons, hp]
        simp [hs]
      · simp only [List.takeWhile_cons, hp]
        simp

/-- On an argument vector with `argc` entries and an initialized storage,
`SetInputFileNames` returns, requests exactly `inputFiles argv`, in order, and adds the
nodes that could be loaded. -/
theorem SetInputFileNames_initialized (load : Loader N) (h : mitkRenderingTestHelper N)
    (nodes : List N) (argv : List String) (hs : h.m_DataStorage = some nodes) :
    ∃ h', SetInputFileNames load h argv.length argv = some h' ∧
      h'.m_DataStorage = some (nodes ++
        (inputFiles argv).filterMap (fun f => (load f).toOption)) ∧
      loadRequests h'.trace = loadRequests h.trace ++ inputFiles argv := by
  cases argv with
  | nil => exact ⟨h, rfl, by simp [inputFiles, hs], by simp [inputFiles]⟩
  | cons a rest =>
    have hloop := loop_initialized load (a :: rest) rest.length 1 h nodes
      (by simp [Nat.add_comm]) hs
    have hrange : ((((a :: rest).length : Nat) : Int)).toNat - 1 = rest.length := by simp
    unfold SetInputFileNames inputFiles
    rw [hrange]
    exact hloop

/-- A prefix whose members all satisfy `p` is a prefix of `takeWhile p`. -/
theorem isPrefix_takeWhile_of_all {α : Type} (p : α → Bool) :
    ∀ (l L : List α), l <+: L → (∀ a ∈ l, p a = true) → l <+: L.takeWhile p := by
  intro l
  induction l with
  | nil => intro L _ _; exact List.nil_prefix
  | cons a l ih =>
    intro L hpre hall
    obtain ⟨t, rfl⟩ := hpre
    have ha : p a = true := hall a (List.mem_cons_self _ _)
    have hrest : l <+: (l ++ t).takeWhile p :=
      ih (l ++ t) (List.prefix_append l t) (fun b hb => hall b (List.mem_cons_of_mem _ hb))
    simp only [List.cons_append, List.takeWhile_cons_of_pos ha]
    exact (List.prefix_cons_inj a).mpr hrest

/-- An entry of `takeWhile p` at an index up to which all entries satisfy `p` is the
entry of the list. -/
theorem getElem_takeWhile_of_all {α : Type} (p : α → Bool) :
    ∀ (L : List α) (i : Nat), (∀ j, j ≤ i → ∀ a, L[j]? = some a → p a = true) →
      (L.takeWhile p)[i]? = L[i]? := by
  intro L
  induction L with
  | nil => intro i _; rfl
  | cons b L ih =>
    intro i hall
    have hb : p b = true := hall 0 (Nat.zero_le _) b (by simp)
    rw [List.takeWhile_cons_of_pos hb]
    cases i with
    | zero => simp
    | succ i =>
      simp only [List.getElem?_cons_succ]
      exact ih i (fun j hj a ha => hall (j + 1) (by omega) a (by simpa using ha))

end mitkRenderingTestHelper

namespace mitkRenderingTestHelper

variable {N : Type}

/-- The members of `inputFiles argv` are neither `-T` nor `-V`. -/
theorem inputFiles_no_flag (argv : List String) :
    ∀ a ∈ inputFiles argv, a ≠ "-T" ∧ a ≠ "-V" := by
  intro a ha
  have hp := List.mem_takeWhile_imp ha
  simpa using hp

/-- C12 (as stated, refuted): for the arguments `test -T a.nrrd` the argument `a.nrrd`,
which is neither `-T` nor `-V`, is not passed to `AddToStorage`: nothing is. -/
theorem SetInputFileNames_skips_after_flag :
    ["test", "-T", "a.nrrd"][2]? = some "a.nrrd" ∧ "a.nrrd" ≠ "-T" ∧ "a.nrrd" ≠ "-V" ∧
    (SetInputFileNames sampleLoader (new 640 480) 3 ["test", "-T", "a.nrrd"]).map
        (fun h => loadRequests h.trace) = some [] ∧
    ¬ ∃ h, SetInputFileNames sampleLoader (new 640 480) 3 ["test", "-T", "a.nrrd"] = some h ∧
        "a.nrrd" ∈ loadRequests h.trace := by
  have hrun : SetInputFileNames sampleLoader (new 640 480) 3 ["test", "-T", "a.nrrd"] =
      some (new 640 480) := by decide
  refine ⟨by decide, by decide, by decide, by rw [hrun]; decide, ?_⟩
  rintro ⟨h, hh, hmem⟩
  rw [hrun] at hh
  cases hh
  exact absurd hmem (by decide)

/-- C12 (amended): on an initialized storage `SetInputFileNames` returns, and every
argument `argv[i]`, `1 <= i < argc`, with no `-T` or `-V` among `argv[1]`, ..., `argv[i]`
is passed to `AddToStorage`, in the order of the arguments (as the request number `i`);
`-T` and `-V` themselves are never passed. -/
theorem SetInputFileNames_before_flag (load : Loader N) (h : mitkRenderingTestHelper N)
    (nodes : List N) (argv : List String) (hs : h.m_DataStorage = some nodes) :
    ∃ h' passed, SetInputFileNames load h argv.length argv = some h' ∧
      loadRequests h'.trace = loadRequests h.trace ++ passed ∧
      (∀ i, 1 ≤ i → i < argv.length →
        (∀ j, 1 ≤ j → j ≤ i → argv[j]? ≠ some "-T" ∧ argv[j]? ≠ some "-V") →
        passed[i - 1]? = argv[i]?) ∧
      "-T" ∉ passed ∧ "-V" ∉ passed := by
  obtain ⟨h', hrun, -, htrace⟩ := SetInputFileNames_initialized load h nodes argv hs
  refine ⟨h', inputFiles argv, hrun, htrace, ?_, ?_, ?_⟩
  · intro i hi1 _ hall
    have hidx : (argv.drop 1)[i - 1]? = argv[i]? := by
      rw [List.getElem?_drop]
      congr 1
      omega
    rw [← hidx]
    unfold inputFiles
    apply getElem_takeWhile_of_all
    intro j hj a ha
    rw [List.getElem?_drop] at ha
    have hflag := hall (1 + j) (by omega) (by omega)
    rw [ha] at hflag
    simpa using hflag
  · intro hmem
    exact (inputFiles_no_flag argv _ hmem).1 rfl
  · intro hmem
    exact (inputFiles_no_flag argv _ hmem).2 rfl

/-- Witness for C12 (amended): with the arguments `test a.nrrd bad.nrrd -V c.nrrd` the
helper requests `a.nrrd` and `bad.nrrd`. -/
theorem SetInputFileNames_before_flag_sample :
    (new 640 480 : mitkRenderingTestHelper String).m_DataStorage = some [] ∧
    ∃ h' passed,
      SetInputFileNames sampleLoader (new 640 480)
        (["test", "a.nrrd", "bad.nrrd", "-V", "c.nrrd"].length : Nat)
        ["test", "a.nrrd", "bad.nrrd", "-V", "c.nrrd"] = some h' ∧
      loadRequests h'.trace =
        loadRequests (new 640 480 : mitkRenderingTestHelper String).trace ++ passed ∧
      (∀ i, 1 ≤ i → i < ["test", "a.nrrd", "bad.nrrd", "-V", "c.nrrd"].length →
        (∀ j, 1 ≤ j → j ≤ i →
          ["test", "a.nrrd", "bad.nrrd", "-V", "c.nrrd"][j]? ≠ some "-T" ∧
          ["test", "a.nrrd", "bad.nrrd", "-V", "c.nrrd"][j]? ≠ some "-V") →
        passed[i - 1]? = ["test", "a.nrrd", "bad.nrrd", "-V", "c.nrrd"][i]?) ∧
      "-T" ∉ passed ∧ "-V" ∉ passed :=
  ⟨rfl, SetInputFileNames_before_flag sampleLoader (new 640 480) []
    ["test", "a.nrrd", "bad.nrrd", "-V", "c.nrrd"] rfl⟩

/-- C15: on an initialized storage `AddToStorage` always returns. When loading throws
an `itk::ExceptionObject` the storage is unchanged and the failure is logged; when
loading succeeds exactly the loaded node is added. So `SetInputFileNames` adds the nodes
of all loadable input files, also of those that follow a failing one. -/
theorem AddToStorage_load_failure (load : Loader N) (h : mitkRenderingTestHelper N)
    (nodes : List N) (hs : h.m_DataStorage = some nodes) :
    (∀ filename what, load filename = Except.error what →
      ∃ h', AddToStorage load h filename = some h' ∧ h'.m_DataStorage = some nodes ∧
        h'.trace = h.trace ++ [HelperEvent.LoadDataNode filename,
          HelperEvent.Error ("Failed loading test data \x27" ++ filename ++ "\x27: " ++ what)]) ∧
    (∀ filename node, load filename = Except.ok node →
      ∃ h', AddToStorage load h filename = some h' ∧
        h'.m_DataStorage = some (nodes ++ [node])) ∧
    (∀ argv : List String,
      ∃ h', SetInputFileNames load h argv.length argv = some h' ∧
        h'.m_DataStorage = some (nodes ++
          (inputFiles argv).filterMap (fun f => (load f).toOption))) := by
  refine ⟨?_, ?_, ?_⟩
  · intro filename what hl
    refine ⟨{ h with trace := h.trace ++ [HelperEvent.LoadDataNode filename] ++
        [HelperEvent.Error ("Failed loading test data \x27" ++ filename ++ "\x27: " ++ what)] },
      ?_, hs, ?_⟩
    · simp only [AddToStorage, hl]
    · simp
  · intro filename node hl
    refine ⟨{ h with m_DataStorage := some (nodes ++ [node]),
                     trace := h.trace ++ [HelperEvent.LoadDataNode filename] ++
                       [HelperEvent.InitializeViews] }, ?_, rfl⟩
    simp only [AddToStorage, hl, AddNodeToStorage, hs]
  · intro argv
    obtain ⟨h', hrun, hst, -⟩ := SetInputFileNames_initialized load h nodes argv hs
    exact ⟨h', hrun, hst⟩

/-- Witness for C15: `bad.nrrd` cannot be loaded and leaves the storage empty, `a.nrrd`
adds its node, and with the arguments `test a.nrrd bad.nrrd c.nrrd -V ref.png` the nodes
of `a.nrrd` and `c.nrrd` are in the storage. -/
theorem AddToStorage_load_failure_sample :
    (∃ h', AddToStorage sampleLoader (new 640 480) "bad.nrrd" = some h' ∧
      h'.m_DataStorage = some [] ∧
      h'.trace = (new 640 480 : mitkRenderingTestHelper String).trace ++
        [HelperEvent.LoadDataNode "bad.nrrd",
         HelperEvent.Error ("Failed loading test data \x27" ++ "bad.nrrd" ++ "\x27: " ++
           "cannot read")]) ∧
    (∃ h', AddToStorage sampleLoader (new 640 480) "a.nrrd" = some h' ∧
      h'.m_DataStorage = some ([] ++ ["node a"])) ∧
    (SetInputFileNames sampleLoader (new 640 480) 6
        ["test", "a.nrrd", "bad.nrrd", "c.nrrd", "-V", "ref.png"]).map
      (fun h => h.m_DataStorage) = some (some ["node a", "node c"]) :=
  ⟨(AddToStorage_load_failure sampleLoader (new 640 480) [] rfl).1 "bad.nrrd" "cannot read"
      rfl,
   (AddToStorage_load_failure sampleLoader (new 640 480) [] rfl).2.1 "a.nrrd" "node a"
      rfl,
   by decide⟩

/-- C18: on an initialized storage `SetInputFileNames` returns and passes to
`AddToStorage` exactly `inputFiles argv`, in order, which is the longest prefix of
`argv[1]`, ..., `argv[argc - 1]` that contains neither `-T` nor `-V`: it is such a
prefix, and every such prefix is a prefix of it. For `argc <= 1` nothing is added. -/
theorem SetInputFileNames_passes_inputFiles (load : Loader N) (h : mitkRenderingTestHelper N)
    (nodes : List N) (argv : List String) (hs : h.m_DataStorage = some nodes) :
    (∃ h', SetInputFileNames load h argv.length argv = some h' ∧
      loadRequests h'.trace = loadRequests h.trace ++ inputFiles argv) ∧
    inputFiles argv <+: argv.drop 1 ∧
    (∀ a ∈ inputFiles argv, a ≠ "-T" ∧ a ≠ "-V") ∧
    (∀ l : List String, l <+: argv.drop 1 → (∀ a ∈ l, a ≠ "-T" ∧ a ≠ "-V") →
      l <+: inputFiles argv) ∧
    (∀ argc : Int, argc ≤ 1 → SetInputFileNames load h argc argv = some h) := by
  refine ⟨?_, List.takeWhile_prefix _, inputFiles_no_flag argv, ?_, ?_⟩
  · obtain ⟨h', hrun, -, htrace⟩ := SetInputFileNames_initialized load h nodes argv hs
    exact ⟨h', hrun, htrace⟩
  · intro l hpre hall
    apply isPrefix_takeWhile_of_all _ l _ hpre
    intro a ha
    have := hall a ha
    simp [this.1, this.2]
  · intro argc hargc
    have hzero : argc.toNat - 1 = 0 := by omega
    simp [SetInputFileNames, hzero, SetInputFileNames.loop]

/-- Witness for C18: with the arguments `test a.nrrd bad.nrrd -V c.nrrd` exactly
`a.nrrd` and `bad.nrrd` are passed on; with `test` alone nothing is. -/
theorem SetInputFileNames_passes_inputFiles_sample :
    (new 640 480 : mitkRenderingTestHelper String).m_DataStorage = some [] ∧
    inputFiles ["test", "a.nrrd", "bad.nrrd", "-V", "c.nrrd"] = ["a.nrrd", "bad.nrrd"] ∧
    (∃ h', SetInputFileNames sampleLoader (new 640 480)
        (["test", "a.nrrd", "bad.nrrd", "-V", "c.nrrd"].length : Nat)
        ["test", "a.nrrd", "bad.nrrd", "-V", "c.nrrd"] = some h' ∧
      loadRequests h'.trace =
        loadRequests (new 640 480 : mitkRenderingTestHelper String).trace ++
          inputFiles ["test", "a.nrrd", "bad.nrrd", "-V", "c.nrrd"]) ∧
    SetInputFileNames sampleLoader (new 640 480) 1 ["test"] = some (new 640 480) :=
  ⟨rfl, by decide,
   (SetInputFileNames_passes_inputFiles sampleLoader (new 640 480) []
      ["test", "a.nrrd", "bad.nrrd", "-V", "c.nrrd"] rfl).1,
   (SetInputFileNames_passes_inputFiles sampleLoader (new 640 480) [] ["test"] rfl).2.2.2.2 1
      (by decide)⟩

end mitkRenderingTestHelper

/-! ## Theorems: the playing time `OnPlaying` displays -/

namespace QmitkIGTPlayerWidget

variable {P T : Type}

/-- C10: when `OnPlaying` updates a player that is not at its end and the elapsed time
`e` (the `int` difference of the updated output's time stamp and the start time, the
start time being the output's time stamp before the update if it was negative) is
`>= 0`, the LCDs display `ms = e mod 1000`, `s = (e div 1000) mod 60` and
`min = e div 60000`, with `0 <= ms < 1000`, `0 <= s < 60`, `min >= 0` and
`min * 60000 + s * 1000 + ms = e`. -/
theorem OnPlaying_displays_decomposition (x : Externals P T) (w : QmitkIGTPlayerWidget P T)
    (p : P) (e : Int) (hp : w.m_Player = some p) (hend : x.IsAtEnd p = false)
    (helapsed : x.elapsed (x.GetOutputTimeStamp (x.Update p))
      (if x.ltZero w.m_StartTime then x.GetOutputTimeStamp p else w.m_StartTime) = e)
    (he : 0 ≤ e) :
    (OnPlaying x w).1.m_lcdNrMsec = LCDValue.number (e % 1000) ∧
    (OnPlaying x w).1.m_lcdNrSec = LCDValue.number ((e / 1000) % 60) ∧
    (OnPlaying x w).1.m_lcdNrMin = LCDValue.number (e / 60000) ∧
    0 ≤ e % 1000 ∧ e % 1000 < 1000 ∧
    0 ≤ (e / 1000) % 60 ∧ (e / 1000) % 60 < 60 ∧
    0 ≤ e / 60000 ∧
    (e / 60000) * 60000 + ((e / 1000) % 60) * 1000 + e % 1000 = e := by
  have hd := (playingTimeDisplay_decomposition e he).1
  have hlcd : (OnPlaying x w).1.m_lcdNrMsec = LCDValue.number (playingTimeDisplay e).1 ∧
      (OnPlaying x w).1.m_lcdNrSec = LCDValue.number (playingTimeDisplay e).2.1 ∧
      (OnPlaying x w).1.m_lcdNrMin = LCDValue.number (playingTimeDisplay e).2.2 := by
    cases w with
    | mk player start name active interval lmin lsec lmsec pb le =>
      cases hp
      cases hneg : x.ltZero start
      · simp [hneg] at helapsed
        simp [OnPlaying, hend, hneg, helapsed]
      · simp [hneg] at helapsed
        simp [OnPlaying, hend, hneg, helapsed]
  rw [hd] at hlcd
  refine ⟨hlcd.1, hlcd.2.1, hlcd.2.2, ?_, ?_, ?_, ?_, ?_, ?_⟩ <;> omega

/-- Witness for C10: a tick on the widget that started at 1000 and whose player moves
to the output of time stamp 63250: the elapsed 62250 ms are displayed as 250 ms, 2 s,
1 min. -/
theorem OnPlaying_displays_decomposition_62250 :
    (OnPlaying scripted longPlayingWidget).1.m_lcdNrMsec = LCDValue.number 250 ∧
    (OnPlaying scripted longPlayingWidget).1.m_lcdNrSec = LCDValue.number 2 ∧
    (OnPlaying scripted longPlayingWidget).1.m_lcdNrMin = LCDValue.number 1 :=
  ⟨(OnPlaying_displays_decomposition scripted longPlayingWidget
      { calls := [PlayerCall.StartPlaying], current := 1000, later := [63250] } 62250
      rfl (by decide) (by decide) (by decide)).1,
   (OnPlaying_displays_decomposition scripted longPlayingWidget
      { calls := [PlayerCall.StartPlaying], current := 1000, later := [63250] } 62250
      rfl (by decide) (by decide) (by decide)).2.1,
   (OnPlaying_displays_decomposition scripted longPlayingWidget
      { calls := [PlayerCall.StartPlaying], current := 1000, later := [63250] } 62250
      rfl (by decide) (by decide) (by decide)).2.2.1⟩

end QmitkIGTPlayerWidget
